import Mathlib

/-!
Verification of the project-resolution core of `syntool` (`src/project.py`).

The Python code is shallowly embedded:

* Python `re` patterns are modelled by a small regex AST (`Regex`) with a
  Brzozowski-derivative matcher.  `rmatch` is whole-string matching;
  `pyMatch` is the semantics of Python `re.match`, which succeeds when the
  pattern matches some PREFIX of the subject string.
* Python `dict` (insertion-ordered, unique keys) is modelled by an
  association list `List (String × α)` with `mapLookup` / `mapContains` /
  `mapUpdate`; `mapUpdate` replaces in place (keeping the original
  position) when the key exists and appends otherwise, exactly like
  `dict.update` with a single key.
* The filesystem and `os.path` are modelled by an explicit environment
  `Env`: `walk dir` is the flattened `os.walk` result (the joined paths,
  in walk order; a missing directory yields `[]`, matching `os.walk`'s
  silent behaviour), `abspath` is `os.path.abspath`, `readSpec` is
  `rtoml.load` on the spec file (`none` models `FileNotFoundError`),
  `pathExists` is `os.path.exists` and `mkdirOk` tells whether `os.mkdir`
  would succeed.
* Exceptions become the `Except PErr` monad; the distinct error classes of
  the code (duplicate module / missing top module / missing IP top module,
  all bare `Exception`s, versus `AttributeError` for missing files or
  manifest keys) become distinct `PErr` constructors.
-/

/-! ### Regex engine (model of the Python `re` module) -/

inductive Regex where
  | nothing : Regex
  | eps : Regex
  | char (c : Char) : Regex
  | any : Regex
  | seq (r1 r2 : Regex) : Regex
  | alt (r1 r2 : Regex) : Regex
  | star (r : Regex) : Regex
deriving DecidableEq, Repr

def Regex.nullable : Regex → Bool
  | .nothing => false
  | .eps => true
  | .char _ => false
  | .any => false
  | .seq r1 r2 => r1.nullable && r2.nullable
  | .alt r1 r2 => r1.nullable || r2.nullable
  | .star _ => true

def Regex.deriv : Regex → Char → Regex
  | .nothing, _ => .nothing
  | .eps, _ => .nothing
  | .char c, a => if a = c then .eps else .nothing
  | .any, _ => .eps
  | .seq r1 r2, a =>
      if r1.nullable then .alt (.seq (r1.deriv a) r2) (r2.deriv a)
      else .seq (r1.deriv a) r2
  | .alt r1 r2, a => .alt (r1.deriv a) (r2.deriv a)
  | .star r, a => .seq (r.deriv a) (.star r)

/-- Whole-string regex matching (the pattern must consume the entire input). -/
def rmatch (r : Regex) (s : List Char) : Bool :=
  (s.foldl Regex.deriv r).nullable

/-- Semantics of Python `re.match`: the pattern, anchored at the start,
matches some prefix of the subject string. -/
def pyMatch (r : Regex) (s : String) : Bool :=
  (List.range (s.toList.length + 1)).any fun n => rmatch r (s.toList.take n)

/-- The code compiles `re.compile(f'\\./{pattern}')`: a literal `./` is
prepended to the configured pattern. -/
def dotSlash (pat : Regex) : Regex :=
  .seq (.char '.') (.seq (.char '/') pat)

/-! ### String helpers (models of `os.path` functions used by the code) -/

/-- Normalize Windows separators, the embedding of
`fullpath.replace('\\', '/')`. -/
def normSeps (s : String) : String :=
  String.mk (s.toList.map fun c => if c = '\\' then '/' else c)

/-- Characters after the last `/` of the string. -/
def afterLastSep (l : List Char) : List Char :=
  l.foldl (fun acc c => if c = '/' then [] else acc ++ [c]) []

/-- Model of `os.path.basename` (POSIX): the component after the last `/`. -/
def basenameStr (p : String) : String :=
  String.mk (afterLastSep p.toList)

/-- The index of the extension dot inside a basename, following CPython's
`splitext`: the last `.`, provided some earlier character of the basename
is not a `.` (so leading dots never start an extension). -/
def splitDotIdx (b : List Char) : Option Nat :=
  ((List.range b.length).filter fun j =>
    b.getD j ' ' = '.' && (List.range j).any fun i => b.getD i ' ' ≠ '.').getLast?

/-- Model of `os.path.splitext(p)[1]`: the suffix including its dot, or `""`.
`splitext` only examines the part of the path after the last separator, so
it is computed on the basename. -/
def splitextExt (p : String) : String :=
  match splitDotIdx (basenameStr p).toList with
  | none => ""
  | some j => String.mk ((basenameStr p).toList.drop j)

/-- Model of the Python slice `s[:-n]` for `n : Nat`.  Crucially, when
`n = 0` Python reads it as `s[:0]`, the EMPTY string, not the whole
string. -/
def pySliceUptoNeg (s : String) (n : Nat) : String :=
  if n = 0 then "" else String.mk (s.toList.take (s.toList.length - n))

/-! ### Ordered maps (model of Python `dict`) -/

def mapLookup {α : Type} (m : List (String × α)) (k : String) : Option α :=
  match m with
  | [] => none
  | (k1, v) :: rest => if k1 = k then some v else mapLookup rest k

def mapContains {α : Type} (m : List (String × α)) (k : String) : Bool :=
  (mapLookup m k).isSome

/-- `dict.update` with a single key: replace in place when the key exists
(keeping its position), append otherwise. -/
def mapUpdate {α : Type} (m : List (String × α)) (k : String) (v : α) :
    List (String × α) :=
  match m with
  | [] => [(k, v)]
  | (k1, v1) :: rest =>
      if k1 = k then (k, v) :: rest else (k1, v1) :: mapUpdate rest k v

/-! ### Data model (the dataclasses of `project.py`) -/

structure FileInfo where
  filename : String
  ext_name : String
  fullpath : String
deriving DecidableEq, Repr

/-- A module registry: module name → file info, insertion-ordered. -/
abbrev Registry := List (String × FileInfo)

structure IpCoreInfo where
  name : String
  root_dir : String
  rtl_files : Registry
deriving DecidableEq, Repr

structure LibInfo where
  name : String
  full_path : String
deriving DecidableEq, Repr

/-! ### Manifest model (the parsed TOML data) -/

/-- The testbench naming template `tb_file_fmt`, a `str.format` template
with exactly one slot: applying it wraps the module name between a fixed
front part and a fixed back part. -/
structure TbFmt where
  front : String
  back : String
deriving DecidableEq, Repr

def TbFmt.apply (t : TbFmt) (m : String) : String :=
  t.front ++ m ++ t.back

/-- One entry of the manifest's `ip` table. -/
structure IpDecl where
  name : String
  rtl_dir : String
  rtl_dir_pattern : Regex
deriving DecidableEq, Repr

/-- One entry of the spec file's `lib` table. -/
structure LibDecl where
  name : String
  path : String
deriving DecidableEq, Repr

/-- Parsed content of the secondary (spec) manifest. -/
structure SpecToml where
  lib : Option (List LibDecl)
  ext_including_dir : Option (List String)
deriving DecidableEq, Repr

/-- The `project` table of the primary manifest, with all required keys
present (missing-key `KeyError`s are outside the claims under study). -/
structure TomlProject where
  language : String
  top_module : String
  rtl_dir : String
  rtl_dir_pattern : Regex
  tb_dir : String
  tb_dir_pattern : Regex
  tb_file_fmt : TbFmt
  build_dir : String
  spec : Option String

structure TomlData where
  project : TomlProject
  ip : Option (List IpDecl)

/-! ### Environment: filesystem and `os.path` -/

structure Env where
  /-- `os.path.abspath`. -/
  abspath : String → String
  /-- `os.sep`. -/
  sep : String
  /-- `os.path.exists`. -/
  pathExists : String → Bool
  /-- Whether `os.mkdir` on this path would succeed (it fails with
  `FileNotFoundError` when the parent is missing). -/
  mkdirOk : String → Bool
  /-- Flattened `os.walk dir`: the `os.path.join(path, file)` results, in
  walk order.  A missing directory yields `[]`: `os.walk` silently ignores
  the error. -/
  walk : String → List String
  /-- `rtoml.load` of a spec file at an absolute path; `none` models
  `FileNotFoundError`. -/
  readSpec : String → Option SpecToml

/-! ### Errors -/

/-- The error classes raised during construction.  `dupModule`,
`topMissing` and `ipTopMissing` are the bare `Exception`s (printed with the
offending name) — the structural-conflict class; `missingFile` is the
`AttributeError` raised from a caught `FileNotFoundError`; `missingKey` the
one raised from a caught `KeyError`. -/
inductive PErr where
  | missingKey : PErr
  | missingFile (path : String) : PErr
  | dupModule (name : String) : PErr
  | topMissing (name : String) : PErr
  | ipTopMissing (name : String) : PErr
deriving DecidableEq, Repr

def isStructuralConflict : PErr → Bool
  | .dupModule _ => true
  | .topMissing _ => true
  | .ipTopMissing _ => true
  | _ => false

def isMissingFileErr {α : Type} : Except PErr α → Bool
  | .error (.missingFile _) => true
  | _ => false

/-! ### File discovery (`Project._file_lists`) -/

/-- The triple produced for one walked path, when it matches:
`(file_name, abspath, ext_name)` exactly as the code computes them —
including the `basename[:-len(ext_name)]` slice for the name. -/
def mkTriple (env : Env) (fullpath : String) : String × String × String :=
  let ext_name := splitextExt fullpath
  let file_name := pySliceUptoNeg (basenameStr fullpath) ext_name.toList.length
  (file_name, env.abspath fullpath, ext_name)

/-- Embedding of `Project._file_lists`: walk the directory, keep the paths
where `re.match` of `\./pattern` succeeds on the separator-normalized
path, and yield `(name, abspath, extension)` triples. -/
def file_lists (env : Env) (dir : String) (pattern : Regex) :
    List (String × String × String) :=
  (env.walk dir).filterMap fun fullpath =>
    if pyMatch (dotSlash pattern) (normSeps fullpath) then
      some (mkTriple env fullpath)
    else none

/-! ### Registration (`Project._append_file_to_map_parteval`) -/

/-- One insertion by the closure returned from
`_append_file_to_map_parteval`: a duplicate name is a hard error carrying
the colliding name. -/
def append_file_to_map (m : Registry) (filename fullpath extname : String) :
    Except String Registry :=
  if mapContains m filename then .error filename
  else .ok (mapUpdate m filename ⟨filename, extname, fullpath⟩)

/-- Feeding every discovered triple to the insertion closure, in discovery
order. -/
def registerFiles (m : Registry) :
    List (String × String × String) → Except String Registry
  | [] => .ok m
  | (f, p, e) :: rest =>
      match append_file_to_map m f p e with
      | .error n => .error n
      | .ok m1 => registerFiles m1 rest

/-- Discover a directory and register the results into a fresh map, the
combination the code performs for the RTL directory, the testbench
directory and each IP core. -/
def discoverRegister (env : Env) (dir : String) (pat : Regex) :
    Except PErr Registry :=
  match registerFiles [] (file_lists env dir pat) with
  | .error n => .error (.dupModule n)
  | .ok m => .ok m

/-- The stems (first components) of a discovery result. -/
def fstNames (l : List (String × String × String)) : List String :=
  l.map fun t => t.1

/-! ### Testbench resolution (`Project._load_testbench_files`) -/

def load_testbench_files_aux (fmt : TbFmt) (tbFiles : Registry)
    (acc : Registry) : Registry → Registry
  | [] => acc
  | (module_name, _) :: rest =>
      match mapLookup tbFiles (fmt.apply module_name) with
      | some fi =>
          load_testbench_files_aux fmt tbFiles (mapUpdate acc module_name fi) rest
      | none => load_testbench_files_aux fmt tbFiles acc rest

/-- Embedding of `Project._load_testbench_files`: for each primary module
`m`, if `tb_file_fmt.format(m)` names a discovered testbench file, map
`m` to that file. -/
def load_testbench_files (fmt : TbFmt) (files tbFiles : Registry) : Registry :=
  load_testbench_files_aux fmt tbFiles [] files

/-! ### IP cores (`Project._load_ip_cores`) -/

/-- The loop body of `_load_ip_cores` for one declaration: discover and
register the core's files, then require the declared name to be among
them. -/
def processIp (env : Env) (ip : IpDecl) : Except PErr IpCoreInfo :=
  match registerFiles [] (file_lists env ip.rtl_dir ip.rtl_dir_pattern) with
  | .error n => .error (.dupModule n)
  | .ok ip_files =>
      if mapContains ip_files ip.name then
        .ok ⟨ip.name, env.abspath ip.rtl_dir, ip_files⟩
      else .error (.ipTopMissing ip.name)

def load_ip_cores_aux (env : Env) (acc : List (String × IpCoreInfo)) :
    List IpDecl → Except PErr (List (String × IpCoreInfo))
  | [] => .ok acc
  | ip :: rest =>
      match processIp env ip with
      | .error e => .error e
      | .ok info => load_ip_cores_aux env (mapUpdate acc ip.name info) rest

/-- Embedding of `Project._load_ip_cores`. -/
def load_ip_cores (env : Env) (decls : List IpDecl) :
    Except PErr (List (String × IpCoreInfo)) :=
  load_ip_cores_aux env [] decls

/-! ### Spec file (`Project._load_spec_file`) -/

/-- Embedding of `Project._load_spec_file`: load the secondary manifest and
absolutize library paths and extra include directories; a missing file is
the `FileNotFoundError` → `AttributeError` path, naming the absolute
path. -/
def load_spec_file (env : Env) (file : String) :
    Except PErr (List LibInfo × List String) :=
  match env.readSpec (env.abspath file) with
  | none => .error (.missingFile (env.abspath file))
  | some dat =>
      .ok (match dat.lib with
           | some ls => ls.map fun l => LibInfo.mk l.name (env.abspath l.path)
           | none => [],
           match dat.ext_including_dir with
           | some ds => ds.map env.abspath
           | none => [])

/-- The extra include directories the spec file contributes (empty when no
spec file is declared or it is unreadable). -/
def specExtDirs (env : Env) (prj : TomlProject) : List String :=
  match prj.spec with
  | none => []
  | some f =>
      match env.readSpec (env.abspath f) with
      | none => []
      | some dat =>
          match dat.ext_including_dir with
          | some ds => ds.map env.abspath
          | none => []

/-! ### Project construction (`Project.__init__`) -/

/-- The resolved project.  `createdDir` records the `os.mkdir` side effect:
`some p` when the build output directory was created, `none` when it
already existed. -/
structure ProjectResult where
  language : String
  files : Registry
  test_bench : Registry
  ip_cores : List (String × IpCoreInfo)
  libs : List LibInfo
  including_dir : List String
  root_dir : String
  top_module : String
  build_out_dir : String
  createdDir : Option String
deriving DecidableEq, Repr

/-- The IP-core step of `__init__`: resolve the `ip` table when present,
else the empty mapping. -/
def ipStep (env : Env) (toml : TomlData) :
    Except PErr (List (String × IpCoreInfo)) :=
  match toml.ip with
  | some decls => load_ip_cores env decls
  | none => .ok []

/-- The spec-file step of `__init__`: resolve the declared spec file when
present, else empty results. -/
def specStep (env : Env) (prj : TomlProject) :
    Except PErr (List LibInfo × List String) :=
  match prj.spec with
  | some f => load_spec_file env f
  | none => .ok ([], [])

/-- Embedding of `Project.__init__` (with `_load_project_properties` and
`_check_top_module` inlined in their call order): discover and register
RTL files, check the top module, discover testbench files and resolve
testbenches, load IP cores and the spec file, assemble `including_dir`,
resolve and create the build output directory. -/
def projectInit (env : Env) (toml : TomlData) : Except PErr ProjectResult :=
  match discoverRegister env toml.project.rtl_dir toml.project.rtl_dir_pattern with
  | .error e => .error e
  | .ok files =>
    if mapContains files toml.project.top_module then
      match discoverRegister env toml.project.tb_dir toml.project.tb_dir_pattern with
      | .error e => .error e
      | .ok test_bench_file =>
        match ipStep env toml with
        | .error e => .error e
        | .ok ip_cores =>
          match specStep env toml.project with
          | .error e => .error e
          | .ok libsInc =>
            if env.pathExists (env.abspath toml.project.build_dir ++ env.sep) then
              .ok { language := toml.project.language, files := files,
                    test_bench := load_testbench_files
                      toml.project.tb_file_fmt files test_bench_file,
                    ip_cores := ip_cores, libs := libsInc.1,
                    including_dir := env.abspath toml.project.rtl_dir ::
                      ((ip_cores.map fun x => x.2.root_dir) ++ libsInc.2),
                    root_dir := env.abspath toml.project.rtl_dir,
                    top_module := toml.project.top_module,
                    build_out_dir := env.abspath toml.project.build_dir ++ env.sep,
                    createdDir := none }
            else if env.mkdirOk (env.abspath toml.project.build_dir ++ env.sep) then
              .ok { language := toml.project.language, files := files,
                    test_bench := load_testbench_files
                      toml.project.tb_file_fmt files test_bench_file,
                    ip_cores := ip_cores, libs := libsInc.1,
                    including_dir := env.abspath toml.project.rtl_dir ::
                      ((ip_cores.map fun x => x.2.root_dir) ++ libsInc.2),
                    root_dir := env.abspath toml.project.rtl_dir,
                    top_module := toml.project.top_module,
                    build_out_dir := env.abspath toml.project.build_dir ++ env.sep,
                    createdDir := some (env.abspath toml.project.build_dir ++ env.sep) }
            else .error (.missingFile (env.abspath toml.project.build_dir ++ env.sep))
    else .error (.topMissing toml.project.top_module)

/-! ### Lemmas about the ordered-map operations -/

theorem mapLookup_mapUpdate {α : Type} (m : List (String × α)) (k k1 : String)
    (v : α) :
    mapLookup (mapUpdate m k v) k1 = if k = k1 then some v else mapLookup m k1 := by
  induction m with
  | nil => simp [mapUpdate, mapLookup]
  | cons hd tl ih =>
    obtain ⟨k2, v2⟩ := hd
    by_cases h2 : k2 = k
    · subst h2
      simp [mapUpdate, mapLookup]
      by_cases h1 : k2 = k1 <;> simp [h1]
    · simp [mapUpdate, h2, mapLookup]
      by_cases h1 : k2 = k1
      · subst h1
        have : ¬ (k = k2) := fun h => h2 h.symm
        simp [this, mapLookup]
      · simp [h1, ih]

theorem mapContains_mapUpdate {α : Type} (m : List (String × α)) (k k1 : String)
    (v : α) :
    mapContains (mapUpdate m k v) k1 = ((k = k1 : Bool) || mapContains m k1) := by
  unfold mapContains
  rw [mapLookup_mapUpdate]
  by_cases h : k = k1 <;> simp [h]

theorem mem_mapUpdate {α : Type} (m : List (String × α)) (k : String) (v : α)
    (p : String × α) (hp : p ∈ mapUpdate m k v) : p ∈ m ∨ p = (k, v) := by
  induction m with
  | nil => simp [mapUpdate] at hp; simp [hp]
  | cons hd tl ih =>
    obtain ⟨k2, v2⟩ := hd
    by_cases h2 : k2 = k
    · subst h2
      simp [mapUpdate] at hp
      rcases hp with h | h
      · right; simp [h]
      · left; simp [h]
    · simp [mapUpdate, h2] at hp
      rcases hp with h | h
      · left; simp [h]
      · rcases ih h with h1 | h1
        · left; simp [h1]
        · right; exact h1

theorem mapLookup_isSome_mem {α : Type} (m : List (String × α)) (k : String)
    (v : α) (h : mapLookup m k = some v) : (k, v) ∈ m := by
  induction m with
  | nil => simp [mapLookup] at h
  | cons hd tl ih =>
    obtain ⟨k2, v2⟩ := hd
    by_cases h2 : k2 = k
    · subst h2
      simp [mapLookup] at h
      simp [h]
    · simp [mapLookup, h2] at h
      simp [ih h]

/-! ### Lemmas about registration -/

theorem fstNames_cons (f p e : String) (tl : List (String × String × String)) :
    fstNames ((f, p, e) :: tl) = f :: fstNames tl := rfl

theorem registerFiles_ok_contains (l : List (String × String × String)) :
    ∀ (m m1 : Registry), registerFiles m l = .ok m1 →
      ∀ k, mapContains m1 k = (mapContains m k || (fstNames l).contains k) := by
  induction l with
  | nil =>
    intro m m1 h k
    simp [registerFiles] at h
    simp [h, fstNames]
  | cons hd tl ih =>
    intro m m1 h k
    obtain ⟨f, p, e⟩ := hd
    simp only [registerFiles] at h
    unfold append_file_to_map at h
    by_cases hc : mapContains m f = true
    · simp [hc] at h
    · simp [hc] at h
      have hm1 := ih _ _ h k
      rw [hm1, mapContains_mapUpdate, fstNames_cons, List.contains_cons]
      by_cases hk : f = k
      · subst hk
        simp
      · have hks : ¬ (k = f) := fun hh => hk hh.symm
        simp only [hk, hks, decide_False, Bool.false_or, beq_iff_eq,
          decide_eq_true_eq, if_false]
        cases mapContains m k <;> simp [hks]

theorem registerFiles_ok_nodup (l : List (String × String × String)) :
    ∀ (m m1 : Registry), registerFiles m l = .ok m1 →
      (fstNames l).Nodup ∧ ∀ k ∈ fstNames l, mapContains m k = false := by
  induction l with
  | nil =>
    intro m m1 _
    simp [fstNames]
  | cons hd tl ih =>
    intro m m1 h
    obtain ⟨f, p, e⟩ := hd
    simp only [registerFiles] at h
    unfold append_file_to_map at h
    by_cases hc : mapContains m f = true
    · simp [hc] at h
    · simp [hc] at h
      obtain ⟨hnd, hall⟩ := ih _ _ h
      rw [fstNames_cons]
      constructor
      · rw [List.nodup_cons]
        refine ⟨?_, hnd⟩
        intro hmem
        have hfm := hall f hmem
        rw [mapContains_mapUpdate] at hfm
        simp at hfm
      · intro k hk
        rcases List.mem_cons.mp hk with hk1 | hk1
        · subst hk1
          simpa using hc
        · have hkm := hall k hk1
          rw [mapContains_mapUpdate] at hkm
          simp at hkm
          exact hkm.2

theorem registerFiles_error (l : List (String × String × String)) :
    ∀ (m : Registry) (n : String), registerFiles m l = .error n →
      n ∈ fstNames l ∧ (mapContains m n = true ∨ 2 ≤ (fstNames l).count n) := by
  induction l with
  | nil =>
    intro m n h
    simp [registerFiles] at h
  | cons hd tl ih =>
    intro m n h
    obtain ⟨f, p, e⟩ := hd
    simp only [registerFiles] at h
    unfold append_file_to_map at h
    by_cases hc : mapContains m f = true
    · simp [hc] at h
      subst h
      rw [fstNames_cons]
      exact ⟨List.mem_cons_self f (fstNames tl), Or.inl hc⟩
    · simp [hc] at h
      obtain ⟨hmem, hrest⟩ := ih _ _ h
      rw [fstNames_cons]
      refine ⟨List.mem_cons_of_mem f hmem, ?_⟩
      rcases hrest with hin | hcount
      · rw [mapContains_mapUpdate] at hin
        simp at hin
        rcases hin with hin | hin
        · right
          subst hin
          rw [List.count_cons]
          have h1 : 1 ≤ (fstNames tl).count f := List.one_le_count_iff.mpr hmem
          simp only [beq_self_eq_true, if_true]
          omega
        · left; exact hin
      · right
        rw [List.count_cons]
        split <;> omega

/-! ### Lemmas about testbench resolution -/

theorem mapLookup_cons {α : Type} (k : String) (v : α)
    (tl : List (String × α)) (m : String) :
    mapLookup ((k, v) :: tl) m = if k = m then some v else mapLookup tl m := rfl

theorem mapContains_cons {α : Type} (k : String) (v : α)
    (tl : List (String × α)) (m : String) :
    mapContains ((k, v) :: tl) m = ((k = m : Bool) || mapContains tl m) := by
  unfold mapContains
  rw [mapLookup_cons]
  by_cases h : k = m <;> simp [h, mapContains]

theorem load_testbench_files_aux_lookup (fmt : TbFmt) (F : Registry)
    (M : Registry) :
    ∀ (acc : Registry) (m : String),
      mapLookup (load_testbench_files_aux fmt F acc M) m =
        if (mapContains M m && mapContains F (fmt.apply m)) then
          mapLookup F (fmt.apply m)
        else mapLookup acc m := by
  induction M with
  | nil =>
    intro acc m
    simp [load_testbench_files_aux, mapContains, mapLookup]
  | cons hd tl ih =>
    intro acc m
    obtain ⟨k, v⟩ := hd
    simp only [load_testbench_files_aux]
    cases hF : mapLookup F (fmt.apply k) with
    | some fi =>
      rw [ih]
      have hcF : mapContains F (fmt.apply k) = true := by
        unfold mapContains; rw [hF]; rfl
      by_cases hk : k = m
      · subst hk
        rw [mapContains_cons]
        simp only [decide_True, Bool.true_or, hcF, Bool.and_true, Bool.true_and]
        by_cases hc : mapContains tl k = true
        · simp [hc, hF]
        · simp only [Bool.not_eq_true] at hc
          simp [hc, hF, mapLookup_mapUpdate]
      · rw [mapContains_cons, mapLookup_mapUpdate]
        have hd : (k = m : Bool) = false := by simp [hk]
        rw [hd, Bool.false_or]
        simp [hk]
    | none =>
      rw [ih]
      by_cases hk : k = m
      · subst hk
        have hcF : mapContains F (fmt.apply k) = false := by
          unfold mapContains; rw [hF]; rfl
        rw [mapContains_cons, hcF]
        simp
      · rw [mapContains_cons]
        have hd : (k = m : Bool) = false := by simp [hk]
        rw [hd, Bool.false_or]

/-! ### Lemmas about IP cores -/

theorem processIp_ok (env : Env) (ip : IpDecl) (info : IpCoreInfo)
    (h : processIp env ip = .ok info) :
    info.name = ip.name ∧ mapContains info.rtl_files info.name = true := by
  unfold processIp at h
  cases hr : registerFiles [] (file_lists env ip.rtl_dir ip.rtl_dir_pattern) with
  | error n => rw [hr] at h; simp at h
  | ok m =>
    rw [hr] at h
    by_cases hc : mapContains m ip.name = true
    · simp only [hc, if_true] at h
      rw [Except.ok.injEq] at h
      rw [← h]
      exact ⟨rfl, hc⟩
    · simp [hc] at h

theorem load_ip_cores_aux_ok_inv (env : Env) (decls : List IpDecl) :
    ∀ (acc res : List (String × IpCoreInfo)),
      load_ip_cores_aux env acc decls = .ok res →
      ∀ p ∈ res, p ∈ acc ∨
        (p.1 = p.2.name ∧ mapContains p.2.rtl_files p.2.name = true) := by
  induction decls with
  | nil =>
    intro acc res h p hp
    simp [load_ip_cores_aux] at h
    subst h
    left; exact hp
  | cons ip rest ih =>
    intro acc res h p hp
    simp only [load_ip_cores_aux] at h
    cases hpi : processIp env ip with
    | error e => rw [hpi] at h; simp at h
    | ok info =>
      rw [hpi] at h
      rcases ih _ _ h p hp with hmem | hgood
      · rcases mem_mapUpdate _ _ _ _ hmem with h1 | h1
        · left; exact h1
        · right
          obtain ⟨hn, hcont⟩ := processIp_ok env ip info hpi
          rw [h1]
          exact ⟨hn.symm, hcont⟩
      · right; exact hgood

theorem load_ip_cores_aux_error_mid (env : Env) (pre : List IpDecl) :
    ∀ (acc : List (String × IpCoreInfo)) (d : IpDecl) (post : List IpDecl)
      (e : PErr),
      (∀ d1 ∈ pre, ∃ i, processIp env d1 = .ok i) →
      processIp env d = .error e →
      load_ip_cores_aux env acc (pre ++ d :: post) = .error e := by
  induction pre with
  | nil =>
    intro acc d post e _ hd
    simp only [List.nil_append, load_ip_cores_aux, hd]
  | cons d1 rest ih =>
    intro acc d post e hpre hd
    obtain ⟨i1, hi1⟩ := hpre d1 (List.mem_cons_self _ _)
    simp only [List.cons_append, load_ip_cores_aux, hi1]
    exact ih _ d post e (fun d2 h2 => hpre d2 (List.mem_cons_of_mem _ h2)) hd

/-! ### Lemmas about the spec file and project construction -/

theorem specExtDirs_eq_some (env : Env) (prj : TomlProject) (f : String)
    (hs : prj.spec = some f) :
    specExtDirs env prj =
      (match env.readSpec (env.abspath f) with
       | none => []
       | some dat =>
           match dat.ext_including_dir with
           | some ds => ds.map env.abspath
           | none => []) := by
  unfold specExtDirs
  rw [hs]

theorem spec_match_ext (env : Env) (prj : TomlProject)
    (li : List LibInfo × List String)
    (h : specStep env prj = Except.ok li) :
    li.2 = specExtDirs env prj := by
  unfold specStep at h
  cases hs : prj.spec with
  | none =>
    rw [hs] at h
    have h2 : (Except.ok (([], []) : List LibInfo × List String) : Except PErr _)
        = Except.ok li := h
    rw [Except.ok.injEq] at h2
    rw [← h2]
    unfold specExtDirs
    rw [hs]
  | some f =>
    rw [hs] at h
    have h2 : load_spec_file env f = Except.ok li := h
    unfold load_spec_file at h2
    rw [specExtDirs_eq_some env prj f hs]
    cases hr : env.readSpec (env.abspath f) with
    | none => rw [hr] at h2; simp at h2
    | some dat =>
      rw [hr] at h2
      rw [Except.ok.injEq] at h2
      rw [← h2]

theorem projectInit_ok_fields (env : Env) (toml : TomlData) (r : ProjectResult)
    (h : projectInit env toml = .ok r) :
    discoverRegister env toml.project.rtl_dir toml.project.rtl_dir_pattern
        = .ok r.files ∧
    mapContains r.files toml.project.top_module = true ∧
    r.top_module = toml.project.top_module ∧
    r.root_dir = env.abspath toml.project.rtl_dir ∧
    ipStep env toml = .ok r.ip_cores ∧
    specStep env toml.project = .ok (r.libs, specExtDirs env toml.project) ∧
    r.including_dir
        = r.root_dir ::
            ((r.ip_cores.map fun x => x.2.root_dir) ++ specExtDirs env toml.project) ∧
    r.build_out_dir = env.abspath toml.project.build_dir ++ env.sep ∧
    (env.pathExists r.build_out_dir = true ∧ r.createdDir = none ∨
     env.pathExists r.build_out_dir = false ∧ r.createdDir = some r.build_out_dir) := by
  unfold projectInit at h
  split at h
  · simp at h
  next files hfiles =>
    split at h
    next htop =>
      split at h
      · simp at h
      next tbf htb =>
        split at h
        · simp at h
        next ip_cores hip =>
          split at h
          · simp at h
          next libsInc hli =>
            have hext : libsInc.2 = specExtDirs env toml.project :=
              spec_match_ext env toml.project libsInc hli
            split at h
            next hex =>
              rw [Except.ok.injEq] at h
              subst h
              refine ⟨hfiles, htop, rfl, rfl, hip, ?_, ?_, rfl, Or.inl ⟨hex, rfl⟩⟩
              · simp only [← hext]
                exact hli
              · simp only [hext]
            next hex =>
              split at h
              next hmk =>
                rw [Except.ok.injEq] at h
                subst h
                refine ⟨hfiles, htop, rfl, rfl, hip, ?_, ?_, rfl, Or.inr ⟨?_, rfl⟩⟩
                · simp only [← hext]
                  exact hli
                · simp only [hext]
                · simp only [Bool.not_eq_true] at hex
                  exact hex
              next hmk => simp at h
    next htop => simp at h

theorem projectInit_top_missing (env : Env) (toml : TomlData) (files : Registry)
    (hreg : discoverRegister env toml.project.rtl_dir toml.project.rtl_dir_pattern
        = .ok files)
    (hfc : mapContains files toml.project.top_module = false) :
    projectInit env toml = .error (.topMissing toml.project.top_module) := by
  unfold projectInit
  rw [hreg]
  simp only [hfc, Bool.false_eq_true, if_false]

theorem projectInit_err_ip (env : Env) (toml : TomlData) (files tbf : Registry)
    (e : PErr)
    (hreg : discoverRegister env toml.project.rtl_dir toml.project.rtl_dir_pattern
        = .ok files)
    (htop : mapContains files toml.project.top_module = true)
    (htb : discoverRegister env toml.project.tb_dir toml.project.tb_dir_pattern
        = .ok tbf)
    (hip : ipStep env toml = .error e) :
    projectInit env toml = .error e := by
  unfold projectInit
  rw [hreg]
  simp only [htop, if_true]
  rw [htb, hip]

theorem projectInit_err_spec (env : Env) (toml : TomlData) (files tbf : Registry)
    (ip_cores : List (String × IpCoreInfo)) (e : PErr)
    (hreg : discoverRegister env toml.project.rtl_dir toml.project.rtl_dir_pattern
        = .ok files)
    (htop : mapContains files toml.project.top_module = true)
    (htb : discoverRegister env toml.project.tb_dir toml.project.tb_dir_pattern
        = .ok tbf)
    (hip : ipStep env toml = .ok ip_cores)
    (hli : specStep env toml.project = .error e) :
    projectInit env toml = .error e := by
  unfold projectInit
  rw [hreg]
  simp only [htop, if_true]
  rw [htb, hip, hli]

theorem projectInit_ok_build (env : Env) (toml : TomlData) (files tbf : Registry)
    (ip_cores : List (String × IpCoreInfo)) (libsInc : List LibInfo × List String)
    (hreg : discoverRegister env toml.project.rtl_dir toml.project.rtl_dir_pattern
        = .ok files)
    (htop : mapContains files toml.project.top_module = true)
    (htb : discoverRegister env toml.project.tb_dir toml.project.tb_dir_pattern
        = .ok tbf)
    (hip : ipStep env toml = .ok ip_cores)
    (hli : specStep env toml.project = .ok libsInc)
    (hex : env.pathExists (env.abspath toml.project.build_dir ++ env.sep) = true) :
    projectInit env toml = .ok
      { language := toml.project.language, files := files,
        test_bench := load_testbench_files toml.project.tb_file_fmt files tbf,
        ip_cores := ip_cores, libs := libsInc.1,
        including_dir := env.abspath toml.project.rtl_dir ::
          ((ip_cores.map fun x => x.2.root_dir) ++ libsInc.2),
        root_dir := env.abspath toml.project.rtl_dir,
        top_module := toml.project.top_module,
        build_out_dir := env.abspath toml.project.build_dir ++ env.sep,
        createdDir := none } := by
  unfold projectInit
  rw [hreg]
  simp only [htop, if_true]
  rw [htb, hip, hli]
  simp only [hex, if_true]

/-! ### Concrete fixtures for witnesses and counterexamples -/

/-- The regex `.*\.v` (any characters, then a literal `.v`). -/
def patDotV : Regex := .seq (.star .any) (.seq (.char '.') (.char 'v'))

/-- A small filesystem: an RTL directory with `adder.v`, a testbench
directory with `adder_tb.v`, three IP-core directories, a readable spec
file and an existing build directory. -/
def wEnv : Env :=
  { abspath := fun s => "/abs/" ++ s
    sep := "/"
    pathExists := fun p => p = "/abs/build/"
    mkdirOk := fun _ => true
    walk := fun d =>
      if d = "./rtl" then ["./rtl/adder.v"]
      else if d = "./tb" then ["./tb/adder_tb.v"]
      else if d = "./ip/fifo" then ["./ip/fifo/fifo.v", "./ip/fifo/fifo_ctrl.v"]
      else if d = "./ip/fifo2" then ["./ip/fifo2/fifo.v"]
      else if d = "./ip/bad" then ["./ip/bad/fifo_ctrl.v"]
      else []
    readSpec := fun p =>
      if p = "/abs/./spec.toml" then
        some { lib := some [⟨"cells", "./libs/cells"⟩],
               ext_including_dir := some ["./inc1", "./inc2"] }
      else none }

/-- A manifest with one IP core and a spec file. -/
def wToml : TomlData :=
  { project :=
      { language := "verilog", top_module := "adder", rtl_dir := "./rtl",
        rtl_dir_pattern := patDotV, tb_dir := "./tb", tb_dir_pattern := patDotV,
        tb_file_fmt := ⟨"", "_tb"⟩, build_dir := "build", spec := some "./spec.toml" }
    ip := some [⟨"fifo", "./ip/fifo", patDotV⟩] }

/-- The IP core resolved from `./ip/fifo`. -/
def wFifoInfo : IpCoreInfo :=
  { name := "fifo", root_dir := "/abs/./ip/fifo",
    rtl_files :=
      [("fifo", ⟨"fifo", ".v", "/abs/./ip/fifo/fifo.v"⟩),
       ("fifo_ctrl", ⟨"fifo_ctrl", ".v", "/abs/./ip/fifo/fifo_ctrl.v"⟩)] }

/-- The result of constructing `wToml` over `wEnv`. -/
def wRes : ProjectResult :=
  { language := "verilog"
    files := [("adder", ⟨"adder", ".v", "/abs/./rtl/adder.v"⟩)]
    test_bench := [("adder", ⟨"adder_tb", ".v", "/abs/./tb/adder_tb.v"⟩)]
    ip_cores := [("fifo", wFifoInfo)]
    libs := [⟨"cells", "/abs/./libs/cells"⟩]
    including_dir := ["/abs/./rtl", "/abs/./ip/fifo", "/abs/./inc1", "/abs/./inc2"]
    root_dir := "/abs/./rtl"
    top_module := "adder"
    build_out_dir := "/abs/build/"
    createdDir := none }

/-- Same manifest, but the configured top module has no discovered file. -/
def c1BadToml : TomlData :=
  { project :=
      { language := "verilog", top_module := "nonexistent", rtl_dir := "./rtl",
        rtl_dir_pattern := patDotV, tb_dir := "./tb", tb_dir_pattern := patDotV,
        tb_file_fmt := ⟨"", "_tb"⟩, build_dir := "build", spec := some "./spec.toml" }
    ip := some [⟨"fifo", "./ip/fifo", patDotV⟩] }

/-! ### Claim C1 -/

/-- Claim C1: for every manifest from which `Project` construction
succeeds, the configured `top_module` is a key of the resulting `files`
mapping; for every manifest whose discovered RTL files do not contain
`top_module` as a stem, construction fails with a structural-conflict
error and never returns a model. -/
theorem c1_top_module_invariant (env : Env) (toml : TomlData) :
    (∀ r, projectInit env toml = .ok r →
        mapContains r.files r.top_module = true) ∧
    ((fstNames (file_lists env toml.project.rtl_dir toml.project.rtl_dir_pattern)).contains
          toml.project.top_module = false →
      ∃ e, projectInit env toml = .error e ∧ isStructuralConflict e = true) := by
  constructor
  · intro r h
    obtain ⟨_, htop, htm, _⟩ := projectInit_ok_fields env toml r h
    rw [htm]
    exact htop
  · intro habs
    cases hreg : discoverRegister env toml.project.rtl_dir toml.project.rtl_dir_pattern with
    | error e =>
      refine ⟨e, ?_, ?_⟩
      · unfold projectInit
        rw [hreg]
      · unfold discoverRegister at hreg
        cases hr : registerFiles []
            (file_lists env toml.project.rtl_dir toml.project.rtl_dir_pattern) with
        | error n =>
          rw [hr] at hreg
          rw [Except.error.injEq] at hreg
          rw [← hreg]
          rfl
        | ok m =>
          rw [hr] at hreg
          simp at hreg
    | ok files =>
      have hfc : mapContains files toml.project.top_module = false := by
        unfold discoverRegister at hreg
        cases hr : registerFiles []
            (file_lists env toml.project.rtl_dir toml.project.rtl_dir_pattern) with
        | error n => rw [hr] at hreg; simp at hreg
        | ok m =>
          rw [hr] at hreg
          rw [Except.ok.injEq] at hreg
          subst hreg
          rw [registerFiles_ok_contains _ _ _ hr]
          simp only [habs, Bool.or_false]
          rfl
      exact ⟨.topMissing toml.project.top_module,
        projectInit_top_missing env toml files hreg hfc, rfl⟩

/-- Concrete run of the C1 theorem: a successful construction whose top
module is a key of `files`, and a manifest with an absent top module that
fails with a structural conflict. -/
theorem c1_witness :
    mapContains wRes.files wRes.top_module = true ∧
    (∃ e, projectInit wEnv c1BadToml = .error e ∧ isStructuralConflict e = true) :=
  ⟨(c1_top_module_invariant wEnv wToml).1 wRes (by rfl),
   (c1_top_module_invariant wEnv c1BadToml).2 (by rfl)⟩

/-! ### Claim C2 -/

/-- Claim C2: testbench resolution is a pure, deterministic function of
the primary module map, the naming template and the discovered
testbench-file map: its result maps exactly those module names `m` for
which the template applied to `m` is a key of the testbench files, each to
the corresponding file; every key of the result is a key of the primary
map, and modules without a matching testbench are omitted without error.
(Determinism holds because `load_testbench_files` is a pure function of
its three arguments.) -/
theorem c2_testbench_resolution (fmt : TbFmt) (M F : Registry) :
    (∀ m, mapLookup (load_testbench_files fmt M F) m =
        if (mapContains M m && mapContains F (fmt.apply m)) then
          mapLookup F (fmt.apply m)
        else none) ∧
    (∀ m, mapContains (load_testbench_files fmt M F) m = true →
        mapContains M m = true) := by
  have key : ∀ m, mapLookup (load_testbench_files fmt M F) m =
      if (mapContains M m && mapContains F (fmt.apply m)) then
        mapLookup F (fmt.apply m)
      else none := by
    intro m
    unfold load_testbench_files
    rw [load_testbench_files_aux_lookup]
    rfl
  refine ⟨key, ?_⟩
  intro m h
  unfold mapContains at h
  rw [key m] at h
  by_cases hc : (mapContains M m && mapContains F (fmt.apply m)) = true
  · rw [Bool.and_eq_true] at hc
    exact hc.1
  · rw [if_neg hc] at h
    simp at h

def c2M : Registry := [("adder", ⟨"adder", ".v", "/abs/./rtl/adder.v"⟩)]

def c2F : Registry := [("adder_tb", ⟨"adder_tb", ".v", "/abs/./tb/adder_tb.v"⟩)]

/-- Concrete run of the C2 theorem with template `\x7b\x7d_tb`: the
resolved key `adder` of the result is a key of the primary map. -/
theorem c2_witness :
    mapContains (load_testbench_files ⟨"", "_tb"⟩ c2M c2F) "adder" = true ∧
    mapContains c2M "adder" = true :=
  ⟨by rfl, (c2_testbench_resolution ⟨"", "_tb"⟩ c2M c2F).2 "adder" (by rfl)⟩

/-! ### Claim C3 -/

/-- Claim C3: for every successfully constructed project, `including_dir`
is exactly `root_dir` followed by the root directory of each IP core in
declaration order, followed by the spec-declared extra include
directories in spec-file order; and a manifest with no IP table and no
spec file yields `ip_cores = {}`, `libs = []` and
`including_dir = [root_dir]`. -/
theorem c3_including_dir_order (env : Env) (toml : TomlData) :
    (∀ r, projectInit env toml = .ok r →
        r.root_dir = env.abspath toml.project.rtl_dir ∧
        r.including_dir = r.root_dir ::
          ((r.ip_cores.map fun x => x.2.root_dir) ++ specExtDirs env toml.project)) ∧
    (toml.ip = none → toml.project.spec = none →
      ∀ r, projectInit env toml = .ok r →
        r.ip_cores = [] ∧ r.libs = [] ∧ r.including_dir = [r.root_dir]) := by
  constructor
  · intro r h
    obtain ⟨_, _, _, hroot, _, _, hinc, _⟩ := projectInit_ok_fields env toml r h
    exact ⟨hroot, hinc⟩
  · intro hip0 hspec0 r h
    obtain ⟨_, _, _, _, hip, hli, hinc, _⟩ := projectInit_ok_fields env toml r h
    unfold ipStep at hip
    rw [hip0] at hip
    have hip2 : (Except.ok ([] : List (String × IpCoreInfo)) : Except PErr _)
        = .ok r.ip_cores := hip
    rw [Except.ok.injEq] at hip2
    unfold specStep at hli
    rw [hspec0] at hli
    have hli2 : (Except.ok (([], []) : List LibInfo × List String) : Except PErr _)
        = .ok (r.libs, specExtDirs env toml.project) := hli
    rw [Except.ok.injEq, Prod.mk.injEq] at hli2
    refine ⟨hip2.symm, hli2.1.symm, ?_⟩
    rw [hinc, ← hip2, ← hli2.2]
    simp

/-- A filesystem whose build directory does not exist yet. -/
def c9Env : Env :=
  { abspath := fun s => "/abs/" ++ s
    sep := "/"
    pathExists := fun _ => false
    mkdirOk := fun _ => true
    walk := fun d => if d = "./rtl" then ["./rtl/adder.v"] else []
    readSpec := fun _ => none }

/-- A minimal manifest: no IP cores, no spec file. -/
def c9Toml : TomlData :=
  { project :=
      { language := "verilog", top_module := "adder", rtl_dir := "./rtl",
        rtl_dir_pattern := patDotV, tb_dir := "./tb", tb_dir_pattern := patDotV,
        tb_file_fmt := ⟨"", "_tb"⟩, build_dir := "out", spec := none }
    ip := none }

/-- The result of constructing `c9Toml` over `c9Env`: the build directory
gets created. -/
def c9Res : ProjectResult :=
  { language := "verilog"
    files := [("adder", ⟨"adder", ".v", "/abs/./rtl/adder.v"⟩)]
    test_bench := []
    ip_cores := []
    libs := []
    including_dir := ["/abs/./rtl"]
    root_dir := "/abs/./rtl"
    top_module := "adder"
    build_out_dir := "/abs/out/"
    createdDir := some "/abs/out/" }

/-- Concrete run of the C3 theorem: a project with one IP core and two
spec-declared include directories, and a bare project whose include path
is exactly `[root_dir]`. -/
theorem c3_witness :
    (wRes.root_dir = wEnv.abspath "./rtl" ∧
     wRes.including_dir = wRes.root_dir ::
       ((wRes.ip_cores.map fun x => x.2.root_dir) ++ specExtDirs wEnv wToml.project)) ∧
    (c9Res.ip_cores = [] ∧ c9Res.libs = [] ∧ c9Res.including_dir = [c9Res.root_dir]) :=
  ⟨(c3_including_dir_order wEnv wToml).1 wRes (by rfl),
   (c3_including_dir_order c9Env c9Toml).2 rfl rfl c9Res (by rfl)⟩

/-! ### Claim C4 -/

/-- Claim C4: inserting an entry whose name is already a key of a registry
aborts the whole resolution with a hard duplicate-module error that
identifies the colliding name; and whenever the discovered stems collide
(in any order), registration as a whole fails with an error naming a stem
that occurs at least twice. -/
theorem c4_duplicate_module_error :
    (∀ (m : Registry) (f p e : String), mapContains m f = true →
        append_file_to_map m f p e = .error f) ∧
    (∀ l : List (String × String × String), ¬ (fstNames l).Nodup →
        ∃ n, registerFiles [] l = .error n ∧ 2 ≤ (fstNames l).count n) := by
  constructor
  · intro m f p e h
    unfold append_file_to_map
    rw [if_pos h]
  · intro l hdup
    cases hr : registerFiles [] l with
    | ok m1 => exact absurd (registerFiles_ok_nodup l [] m1 hr).1 hdup
    | error n =>
      obtain ⟨hmem, hrest⟩ := registerFiles_error l [] n hr
      refine ⟨n, rfl, ?_⟩
      rcases hrest with hin | hcount
      · simp [mapContains, mapLookup] at hin
      · exact hcount

/-- Concrete run of the C4 theorem: inserting `adder` into a registry that
already holds `adder` errors with that name; registering two files that
both reduce to stem `t` fails. -/
theorem c4_witness :
    append_file_to_map [("adder", ⟨"adder", ".v", "/a/adder.v"⟩)]
        "adder" "/b/adder.v" ".v" = .error "adder" ∧
    (∃ n, registerFiles [] [("t", "/a/t.v", ".v"), ("t", "/b/t.sv", ".sv")]
        = .error n ∧
      2 ≤ (fstNames [("t", "/a/t.v", ".v"), ("t", "/b/t.sv", ".sv")]).count n) :=
  ⟨c4_duplicate_module_error.1 _ "adder" "/b/adder.v" ".v" (by rfl),
   c4_duplicate_module_error.2 _ (by decide)⟩

/-! ### Claim C5 (corrected) -/

/-- A filesystem where nothing exists at all. -/
def c5Env : Env :=
  { abspath := fun s => "/abs/" ++ s
    sep := "/"
    pathExists := fun _ => false
    mkdirOk := fun _ => true
    walk := fun _ => []
    readSpec := fun _ => none }

/-- A manifest whose RTL directory `./rtl` does not exist on disk. -/
def c5Toml : TomlData :=
  { project :=
      { language := "verilog", top_module := "adder", rtl_dir := "./rtl",
        rtl_dir_pattern := patDotV, tb_dir := "./tb", tb_dir_pattern := patDotV,
        tb_file_fmt := ⟨"", "_tb"⟩, build_dir := "build", spec := none }
    ip := none }

/-- Counterexample to claim C5 as stated: the RTL directory `./rtl` does
not exist, yet construction fails with a structural-conflict
(missing-top-module) error — not with a missing-file error naming the
missing path.  `os.walk` silently ignores a missing directory. -/
theorem c5_counterexample :
    c5Env.pathExists "./rtl" = false ∧
    projectInit c5Env c5Toml = .error (.topMissing "adder") ∧
    isMissingFileErr (projectInit c5Env c5Toml) = false :=
  ⟨rfl, by rfl, by rfl⟩

/-- Claim C5 as amended: only the spec file produces a missing-file error
(naming its absolute path); a missing RTL, testbench or IP-core directory
is treated as an empty directory — in particular a missing RTL directory
surfaces as a structural-conflict missing-top-module error. -/
theorem c5_missing_paths (env : Env) (toml : TomlData) :
    (env.walk toml.project.rtl_dir = [] →
        projectInit env toml = .error (.topMissing toml.project.top_module)) ∧
    (∀ f files tbf ip_cores,
        toml.project.spec = some f →
        env.readSpec (env.abspath f) = none →
        discoverRegister env toml.project.rtl_dir toml.project.rtl_dir_pattern
            = .ok files →
        mapContains files toml.project.top_module = true →
        discoverRegister env toml.project.tb_dir toml.project.tb_dir_pattern
            = .ok tbf →
        ipStep env toml = .ok ip_cores →
        projectInit env toml = .error (.missingFile (env.abspath f))) := by
  constructor
  · intro hw
    have hreg : discoverRegister env toml.project.rtl_dir toml.project.rtl_dir_pattern
        = .ok ([] : Registry) := by
      unfold discoverRegister file_lists
      rw [hw]
      rfl
    exact projectInit_top_missing env toml [] hreg (by rfl)
  · intro f files tbf ip_cores hs hread hreg htop htb hip
    have hli : specStep env toml.project = .error (.missingFile (env.abspath f)) := by
      unfold specStep
      simp only [hs]
      unfold load_spec_file
      simp only [hread]
    exact projectInit_err_spec env toml files tbf ip_cores _ hreg htop htb hip hli

/-- A manifest declaring a spec file that does not exist on disk. -/
def c5SpecToml : TomlData :=
  { project :=
      { language := "verilog", top_module := "adder", rtl_dir := "./rtl",
        rtl_dir_pattern := patDotV, tb_dir := "./tb", tb_dir_pattern := patDotV,
        tb_file_fmt := ⟨"", "_tb"⟩, build_dir := "build",
        spec := some "./missing.toml" }
    ip := none }

/-- Concrete run of the amended C5 theorem: a missing RTL directory gives
missing-top-module, a missing spec file gives a missing-file error naming
its absolute path. -/
theorem c5_witness :
    projectInit c5Env c5Toml = .error (.topMissing "adder") ∧
    projectInit wEnv c5SpecToml = .error (.missingFile "/abs/./missing.toml") :=
  ⟨(c5_missing_paths c5Env c5Toml).1 (by rfl),
   (c5_missing_paths wEnv c5SpecToml).2 "./missing.toml"
     [("adder", ⟨"adder", ".v", "/abs/./rtl/adder.v"⟩)]
     [("adder_tb", ⟨"adder_tb", ".v", "/abs/./tb/adder_tb.v"⟩)]
     [] rfl (by rfl) (by rfl) (by rfl) (by rfl) (by rfl)⟩

/-! ### Claim C6 (corrected) -/

/-- A filesystem whose RTL directory holds a single `.vhd` file. -/
def c6Env : Env :=
  { abspath := fun s => "/abs/" ++ s
    sep := "/"
    pathExists := fun _ => true
    mkdirOk := fun _ => true
    walk := fun d => if d = "./rtl" then ["./rtl/foo.vhd"] else []
    readSpec := fun _ => none }

/-- Counterexample to claim C6 as stated: with pattern `.*\.v`, the file
`foo.vhd` IS yielded by the discoverer (Python `re.match` accepts a prefix
match of `./rtl/foo.v`), although the `./`-anchored pattern matches
neither the whole walked path nor the whole `./`-prefixed path relative
to the root directory. -/
theorem c6_counterexample :
    file_lists c6Env "./rtl" patDotV = [("foo", "/abs/./rtl/foo.vhd", ".vhd")] ∧
    rmatch (dotSlash patDotV) "./rtl/foo.vhd".toList = false ∧
    rmatch (dotSlash patDotV) "./foo.vhd".toList = false :=
  ⟨by rfl, by rfl, by rfl⟩

/-- Claim C6 as amended: the discoverer yields exactly the walked files
whose separator-normalized walk path (the directory argument joined with
the file's subpath) has SOME PREFIX fully matched by the `./`-prefixed
pattern — Python `re.match` semantics, a prefix match of the joined path,
not a whole-path match of the path relative to the root directory. -/
theorem c6_discoverer_prefix_semantics (env : Env) (dir : String) (pat : Regex) :
    (∀ t, t ∈ file_lists env dir pat →
        ∃ fp, fp ∈ env.walk dir ∧ pyMatch (dotSlash pat) (normSeps fp) = true ∧
          t = mkTriple env fp) ∧
    (∀ fp, fp ∈ env.walk dir → pyMatch (dotSlash pat) (normSeps fp) = true →
        mkTriple env fp ∈ file_lists env dir pat) ∧
    (∀ (r : Regex) (s : String),
        pyMatch r s = true ↔
          ∃ n, n ≤ s.toList.length ∧ rmatch r (s.toList.take n) = true) := by
  refine ⟨?_, ?_, ?_⟩
  · intro t ht
    unfold file_lists at ht
    rw [List.mem_filterMap] at ht
    obtain ⟨fp, hfp, hsome⟩ := ht
    by_cases hm : pyMatch (dotSlash pat) (normSeps fp) = true
    · rw [if_pos hm] at hsome
      rw [Option.some.injEq] at hsome
      exact ⟨fp, hfp, hm, hsome.symm⟩
    · rw [if_neg hm] at hsome
      simp at hsome
  · intro fp hfp hm
    unfold file_lists
    rw [List.mem_filterMap]
    exact ⟨fp, hfp, by rw [if_pos hm]⟩
  · intro r s
    unfold pyMatch
    rw [List.any_eq_true]
    constructor
    · rintro ⟨n, hn, hf⟩
      rw [List.mem_range] at hn
      exact ⟨n, by omega, hf⟩
    · rintro ⟨n, hn, hf⟩
      exact ⟨n, by rw [List.mem_range]; omega, hf⟩

/-- Concrete run of the amended C6 theorem: the `.vhd` file enters the
discovery result because a strict prefix of its path matches. -/
theorem c6_witness :
    mkTriple c6Env "./rtl/foo.vhd" ∈ file_lists c6Env "./rtl" patDotV ∧
    (pyMatch (dotSlash patDotV) "./rtl/foo.vhd" = true ↔
      ∃ n, n ≤ "./rtl/foo.vhd".toList.length ∧
        rmatch (dotSlash patDotV) ("./rtl/foo.vhd".toList.take n) = true) :=
  ⟨(c6_discoverer_prefix_semantics c6Env "./rtl" patDotV).2.1 "./rtl/foo.vhd"
     (by decide) (by rfl),
   (c6_discoverer_prefix_semantics c6Env "./rtl" patDotV).2.2 (dotSlash patDotV)
     "./rtl/foo.vhd"⟩

/-! ### Claim C7 (code bug) -/

/-- A filesystem whose RTL directory holds a suffix-less `Makefile` next
to `adder.v`. -/
def c7Env : Env :=
  { abspath := fun s => "/abs/" ++ s
    sep := "/"
    pathExists := fun _ => true
    mkdirOk := fun _ => true
    walk := fun d => if d = "./rtl" then ["./rtl/Makefile", "./rtl/adder.v"] else []
    readSpec := fun _ => none }

/-- Claim C7 evaluated at the failing input: for the suffix-less file
`Makefile` the code yields the EMPTY string as the module name — the
Python slice `basename[:-len(ext_name)]` is `basename[:0]` when the
extension is empty — although the basename is `Makefile` and the claim
(and the code's own comment, "file name without the suffix") require the
whole filename.  Files with a suffix, such as `adder.v`, are named
correctly. -/
theorem c7_no_suffix_name_eval :
    file_lists c7Env "./rtl" (Regex.star .any)
        = [("", "/abs/./rtl/Makefile", ""),
           ("adder", "/abs/./rtl/adder.v", ".v")] ∧
    basenameStr "./rtl/Makefile" = "Makefile" ∧
    splitextExt "./rtl/Makefile" = "" :=
  ⟨by rfl, by rfl, by rfl⟩

/-! ### Claim C8 -/

/-- Claim C8: an IP core whose declared name is not a stem of its own
freshly discovered registry aborts the whole resolution with a hard
structural-conflict error naming that core; on success every resolved
`IpCoreInfo` has its name as a key of its `rtl_files`. -/
theorem c8_ip_core_top_module (env : Env) (toml : TomlData) :
    (∀ r, projectInit env toml = .ok r →
        ∀ p ∈ r.ip_cores,
          p.1 = p.2.name ∧ mapContains p.2.rtl_files p.2.name = true) ∧
    (∀ pre d post files tbf mf,
        toml.ip = some (pre ++ d :: post) →
        discoverRegister env toml.project.rtl_dir toml.project.rtl_dir_pattern
            = .ok files →
        mapContains files toml.project.top_module = true →
        discoverRegister env toml.project.tb_dir toml.project.tb_dir_pattern
            = .ok tbf →
        (∀ d1 ∈ pre, ∃ i, processIp env d1 = .ok i) →
        registerFiles [] (file_lists env d.rtl_dir d.rtl_dir_pattern) = .ok mf →
        mapContains mf d.name = false →
        projectInit env toml = .error (.ipTopMissing d.name)) := by
  constructor
  · intro r h p hp
    obtain ⟨_, _, _, _, hip, _⟩ := projectInit_ok_fields env toml r h
    unfold ipStep at hip
    cases hdecl : toml.ip with
    | none =>
      rw [hdecl] at hip
      have h2 : (Except.ok ([] : List (String × IpCoreInfo)) : Except PErr _)
          = .ok r.ip_cores := hip
      rw [Except.ok.injEq] at h2
      rw [← h2] at hp
      simp at hp
    | some decls =>
      rw [hdecl] at hip
      have h2 : load_ip_cores env decls = .ok r.ip_cores := hip
      unfold load_ip_cores at h2
      rcases load_ip_cores_aux_ok_inv env decls [] r.ip_cores h2 p hp with h3 | h3
      · simp at h3
      · exact h3
  · intro pre d post files tbf mf hdecl hreg htop htb hpre hrf hnc
    have hproc : processIp env d = .error (.ipTopMissing d.name) := by
      unfold processIp
      rw [hrf]
      simp only [hnc, Bool.false_eq_true, if_false]
    have hip : ipStep env toml = .error (.ipTopMissing d.name) := by
      unfold ipStep
      simp only [hdecl]
      unfold load_ip_cores
      exact load_ip_cores_aux_error_mid env pre [] d post _ hpre hproc
    exact projectInit_err_ip env toml files tbf _ hreg htop htb hip

/-- A manifest whose IP core `fifo` points at a directory containing only
`fifo_ctrl.v`. -/
def c8Toml : TomlData :=
  { project :=
      { language := "verilog", top_module := "adder", rtl_dir := "./rtl",
        rtl_dir_pattern := patDotV, tb_dir := "./tb", tb_dir_pattern := patDotV,
        tb_file_fmt := ⟨"", "_tb"⟩, build_dir := "build", spec := none }
    ip := some [⟨"fifo", "./ip/bad", patDotV⟩] }

/-- Concrete run of the C8 theorem: the resolved core `fifo` of the
successful project contains its own top module, and the core declared over
a directory holding only `fifo_ctrl.v` aborts resolution naming `fifo`. -/
theorem c8_witness :
    (("fifo", wFifoInfo).1 = wFifoInfo.name ∧
      mapContains wFifoInfo.rtl_files wFifoInfo.name = true) ∧
    projectInit wEnv c8Toml = .error (.ipTopMissing "fifo") :=
  ⟨(c8_ip_core_top_module wEnv wToml).1 wRes (by rfl) ("fifo", wFifoInfo) (by decide),
   (c8_ip_core_top_module wEnv c8Toml).2 [] ⟨"fifo", "./ip/bad", patDotV⟩ []
     [("adder", ⟨"adder", ".v", "/abs/./rtl/adder.v"⟩)]
     [("adder_tb", ⟨"adder_tb", ".v", "/abs/./tb/adder_tb.v"⟩)]
     [("fifo_ctrl", ⟨"fifo_ctrl", ".v", "/abs/./ip/bad/fifo_ctrl.v"⟩)]
     rfl (by rfl) (by rfl) (by rfl) (by intro d1 hd1; simp at hd1)
     (by rfl) (by rfl)⟩

/-! ### Claim C9 -/

/-- Claim C9: for every successful construction, `build_out_dir` equals
the absolute form of the manifest's `build_dir` with a trailing separator
appended, and afterwards the directory exists on disk: it is created when
absent and left alone (without error) when already present. -/
theorem c9_build_out_dir (env : Env) (toml : TomlData) (r : ProjectResult)
    (h : projectInit env toml = .ok r) :
    r.build_out_dir = env.abspath toml.project.build_dir ++ env.sep ∧
    (env.pathExists r.build_out_dir = true → r.createdDir = none) ∧
    (env.pathExists r.build_out_dir = false → r.createdDir = some r.build_out_dir) ∧
    (env.pathExists r.build_out_dir = true ∨ r.createdDir = some r.build_out_dir) := by
  obtain ⟨_, _, _, _, _, _, _, hbd, hcr⟩ := projectInit_ok_fields env toml r h
  rcases hcr with ⟨he, hc⟩ | ⟨he, hc⟩
  · refine ⟨hbd, fun _ => hc, fun hf => ?_, Or.inl he⟩
    rw [he] at hf
    exact absurd hf (by simp)
  · refine ⟨hbd, fun ht => ?_, fun _ => hc, Or.inr hc⟩
    rw [he] at ht
    exact absurd ht (by simp)

/-- Concrete run of the C9 theorem: the build directory `out` does not
exist beforehand; construction succeeds, records the creation, and
`build_out_dir` is the absolute path with a trailing separator. -/
theorem c9_witness :
    c9Res.build_out_dir = c9Env.abspath "out" ++ c9Env.sep ∧
    (c9Env.pathExists c9Res.build_out_dir = true ∨
      c9Res.createdDir = some c9Res.build_out_dir) :=
  ⟨(c9_build_out_dir c9Env c9Toml c9Res (by rfl)).1,
   (c9_build_out_dir c9Env c9Toml c9Res (by rfl)).2.2.2⟩

/-! ### Claim C10 -/

/-- Claim C10: when the `ip` table declares two cores with the same name
and each passes its own top-module check, construction succeeds and
`ip_cores` maps that name to the `IpCoreInfo` of the LATER declaration —
no uniqueness check is applied at the `ip_cores` aggregate level. -/
theorem c10_duplicate_ip_overwrite (env : Env) (toml : TomlData)
    (d1 d2 : IpDecl) (i1 i2 : IpCoreInfo) (files tbf : Registry)
    (libsInc : List LibInfo × List String)
    (hdecl : toml.ip = some [d1, d2])
    (hname : d1.name = d2.name)
    (h1 : processIp env d1 = .ok i1)
    (h2 : processIp env d2 = .ok i2)
    (hreg : discoverRegister env toml.project.rtl_dir toml.project.rtl_dir_pattern
        = .ok files)
    (htop : mapContains files toml.project.top_module = true)
    (htb : discoverRegister env toml.project.tb_dir toml.project.tb_dir_pattern
        = .ok tbf)
    (hli : specStep env toml.project = .ok libsInc)
    (hex : env.pathExists (env.abspath toml.project.build_dir ++ env.sep) = true) :
    ∃ r, projectInit env toml = .ok r ∧ r.ip_cores = [(d2.name, i2)] ∧
      mapLookup r.ip_cores d2.name = some i2 := by
  have hip : ipStep env toml = .ok [(d2.name, i2)] := by
    unfold ipStep
    simp only [hdecl]
    unfold load_ip_cores
    simp only [load_ip_cores_aux, h1, h2]
    rw [hname]
    simp [mapUpdate]
  refine ⟨_, projectInit_ok_build env toml files tbf [(d2.name, i2)] libsInc
    hreg htop htb hip hli hex, rfl, ?_⟩
  simp [mapLookup]

/-- A manifest declaring two IP cores both named `fifo`, rooted at two
directories that each contain a `fifo.v`. -/
def c10Toml : TomlData :=
  { project :=
      { language := "verilog", top_module := "adder", rtl_dir := "./rtl",
        rtl_dir_pattern := patDotV, tb_dir := "./tb", tb_dir_pattern := patDotV,
        tb_file_fmt := ⟨"", "_tb"⟩, build_dir := "build", spec := none }
    ip := some [⟨"fifo", "./ip/fifo", patDotV⟩, ⟨"fifo", "./ip/fifo2", patDotV⟩] }

/-- The IP core resolved from `./ip/fifo2`, the later declaration. -/
def fifo2Info : IpCoreInfo :=
  { name := "fifo", root_dir := "/abs/./ip/fifo2",
    rtl_files := [("fifo", ⟨"fifo", ".v", "/abs/./ip/fifo2/fifo.v"⟩)] }

/-- Concrete run of the C10 theorem: both declarations pass their own
check, construction succeeds, and `fifo` maps to the later core. -/
theorem c10_witness :
    ∃ r, projectInit wEnv c10Toml = .ok r ∧ r.ip_cores = [("fifo", fifo2Info)] ∧
      mapLookup r.ip_cores "fifo" = some fifo2Info :=
  c10_duplicate_ip_overwrite wEnv c10Toml
    ⟨"fifo", "./ip/fifo", patDotV⟩ ⟨"fifo", "./ip/fifo2", patDotV⟩
    wFifoInfo fifo2Info
    [("adder", ⟨"adder", ".v", "/abs/./rtl/adder.v"⟩)]
    [("adder_tb", ⟨"adder_tb", ".v", "/abs/./tb/adder_tb.v"⟩)]
    ([], [])
    rfl rfl (by rfl) (by rfl) (by rfl) (by rfl) (by rfl) (by rfl) (by rfl)
